import Mathlib

/-!
Verification of the aideon_agent repository against its specification.

Each Python module relevant to the claims is shallowly embedded as Lean
definitions: pure helpers become Lean functions, database rows become
structures, and the database-touching operations become functions from the
old row value (plus any inputs such as the current time) to the new row
value.  Machine integers are modelled as `Nat`/`Int` (no arithmetic in the
source overflows), SQL `NULL`-able columns as `Option`, and Python
truthiness (`or` fallbacks, `if not x`) is modelled explicitly.
-/

namespace Aideon

/-! ### Python string helpers

`pyStrip` models Python `str.strip()` for the ASCII whitespace characters
(space, tab, newline, carriage return, vertical tab, form feed); the
repository only ever strips ASCII payloads. -/

def pyWsChar (c : Char) : Bool :=
  c = ' ' || c = '\t' || c = '\n' || c = '\r' || c = '\x0b' || c = '\x0c'

def trimCharsBy (p : Char → Bool) (l : List Char) : List Char :=
  ((l.dropWhile p).reverse.dropWhile p).reverse

def pyStrip (s : String) : String :=
  String.mk (trimCharsBy pyWsChar s.data)

/-- Python `str.lower()` (the repository only lowercases ASCII data). -/
def pyLower (s : String) : String :=
  String.mk (s.data.map Char.toLower)

/-! ### prmoney_fetcher._is_pending_status

The aggregator may deliver `status` as a JSON number, a JSON string, or
some other shape.  `PyVal` models the dynamic value: `int` for Python ints,
`str` for strings, `other` for every other runtime type (None, lists, ...).
-/

inductive PyVal where
  | int (n : Int)
  | str (s : String)
  | other
deriving DecidableEq, Repr

def pendingStatusStrings : List String := ["0", "queued", "pending", "waiting"]

def isPendingStatus (status : PyVal) : Bool :=
  match status with
  | .int n => n = 0
  | .str s =>
      if pendingStatusStrings.contains (pyLower (pyStrip s)) then true else false
  | .other => false

/-! ### captcha_manager

`PageState` abstracts the page signals `_has_captcha` probes, one Boolean
per probe (captcha-ish iframe URL, captcha-marked img/canvas/div, captcha
input field, one of the known captcha phrases on the page, such a phrase
inside a modal).  The function returns `true` from the matching branch, and
— as shipped — also `true` from its final fallback. -/

structure PageState where
  captchaFrame : Bool
  captchaElem : Bool
  captchaInput : Bool
  captchaText : Bool
  captchaModalText : Bool
deriving DecidableEq, Repr

def hasCaptcha (p : PageState) : Bool :=
  if p.captchaFrame then true
  else if p.captchaElem then true
  else if p.captchaInput then true
  else if p.captchaText then true
  else if p.captchaModalText then true
  else true

/-- The `for i in range(10)` polling loop of `process_captcha_if_needed`:
`has_captcha` starts out `True`, is set to `True` when a probe fires, and is
left at its initial value when the loop exhausts. -/
def detectCaptchaLoop (p : PageState) : Nat → Bool
  | 0 => true
  | Nat.succ n => if hasCaptcha p then true else detectCaptchaLoop p n

/-- `process_captcha_if_needed` (return value only; the HTML dumps and the
best-effort checkbox click are I/O side effects with no influence on the
returned Boolean). -/
def processCaptchaIfNeeded (p : PageState) : Bool :=
  let hc := detectCaptchaLoop p 10
  if hc = false then true else true

/-! ### models.Invoice

Only the columns the claims touch are carried.  `amount` is only ever
stored and copied by the operations under study, never computed with, so it
is modelled as `Int`; timestamps are modelled as `Nat` ticks. -/

structure Invoice where
  id : Nat
  invoice_id : String
  amount : Int
  currency : String
  recipient_country : String
  recipient_bank : String
  recipient_card_number : String
  recipient_name : String
  sender_name : String
  sender_phone : String
  status : String
  deeplink : Option String
  error_message : Option String
  created_at : Nat
deriving DecidableEq, Repr

/-! ### models.Proxy -/

structure ProxyRow where
  id : Nat
  label : Option String
  host : String
  port_http : Option Nat
  port_socks5 : Option Nat
  username : Option String
  password : Option String
  protocol : String
  is_active : Bool
  last_used_at : Option Nat
  fail_count : Nat
deriving DecidableEq, Repr

/-! ### admin_app.admin_dashboard

The dashboard route runs one `count()` query per literal and hands the six
numbers to the template; `DashboardData` is exactly that template context
(the session-status strings and worker flags are read from `Setting` rows
and do not interact with the invoice counts). -/

structure DashboardData where
  total : Nat
  queued : Nat
  processing : Nat
  waiting : Nat
  error : Nat
  proxies : Nat
deriving DecidableEq, Repr

def adminDashboard (invoices : List Invoice) (proxies : List ProxyRow) : DashboardData :=
  { total := invoices.length
    queued := (invoices.filter (fun i => i.status = "queued")).length
    processing := (invoices.filter (fun i => i.status = "processing")).length
    waiting := (invoices.filter (fun i => i.status = "waiting_captcha")).length
    error := (invoices.filter (fun i => i.status = "error")).length
    proxies := proxies.length }

/-! ### agent._finalize_invoice_error_any_step (the DB write on the found
invoice; the outbound webhook is I/O). -/

def finalizeInvoiceErrorAnyStep (inv : Invoice) (errorMessage : String) : Invoice :=
  { inv with status := "error", error_message := some errorMessage, deeplink := none }

/-! ### multitransfer_step4._update_local_invoice and its two failure-path
call sites (final-screen timeout and no-deeplink-found), which both pass
`deeplink=None, status="error"`. -/

def updateLocalInvoice (inv : Invoice) (deeplink : Option String) (status : String)
    (errorMessage : Option String) : Invoice :=
  { inv with deeplink := deeplink, status := status, error_message := errorMessage }

def step4FinalizeError (inv : Invoice) (errorMessage : String) : Invoice :=
  updateLocalInvoice inv none "error" (some errorMessage)

/-! ### admin_app.invoice_deeplink_callback -/

structure DeeplinkPayload where
  invoice_id : Nat
  invoice_external_id : String
  amount : Int
  currency : String
  deeplink : String
  status : String
  created_at : String
deriving DecidableEq, Repr

/-- The two field writes the endpoint performs on the matched invoice
(`payload.status or "created"` defaults the empty string). -/
def invoiceDeeplinkCallbackUpdate (payload : DeeplinkPayload) (inv : Invoice) : Invoice :=
  { inv with
      deeplink := some payload.deeplink
      status := if payload.status = "" then "created" else payload.status }

/-- Lookup: by internal `id` first, then by external `invoice_id` string. -/
def findInvoiceForCallback (payload : DeeplinkPayload) (db : List Invoice) : Option Invoice :=
  match db.find? (fun i => i.id == payload.invoice_id) with
  | some inv => some inv
  | none => db.find? (fun i => i.invoice_id == payload.invoice_external_id)

/-- The endpoint: 404 (`none`) when no invoice matches, otherwise the
updated invoice. -/
def invoiceDeeplinkCallback (payload : DeeplinkPayload) (db : List Invoice) :
    Option Invoice :=
  (findInvoiceForCallback payload db).map (invoiceDeeplinkCallbackUpdate payload)

/-! ### proxy_manager.mark_proxy_fail / mark_proxy_success

The health-relevant columns of the found `Proxy` row, transformed as the
two functions write them (`fail_count` is a non-NULL column defaulting to
0, so Python's defensive `(fail_count or 0)` is the identity). -/

structure ProxyHealth where
  fail_count : Nat
  is_active : Bool
  last_used_at : Option Nat
deriving DecidableEq, Repr

def markProxyFail (now : Nat) (p : ProxyHealth) : ProxyHealth :=
  let fc := p.fail_count + 1
  { fail_count := fc
    is_active := if 3 ≤ fc then false else p.is_active
    last_used_at := some now }

def markProxySuccess (now : Nat) (_p : ProxyHealth) : ProxyHealth :=
  { fail_count := 0, is_active := true, last_used_at := some now }

/-! ### proxy_manager._choose_port / get_next_proxy_for_launch -/

/-- Python `a or b` on two nullable ints: `None` and `0` are falsy. -/
def pyOrNat (a b : Option Nat) : Option Nat :=
  match a with
  | some n => if n = 0 then b else some n
  | none => b

/-- Python `s or fallback` on a non-NULL string column: `""` is falsy. -/
def pyStrOr (s fallback : String) : String :=
  if s = "" then fallback else s

/-- Python `s or None` on a nullable string: `None` and `""` become `None`. -/
def pyOptStrOrNone (s : Option String) : Option String :=
  match s with
  | some v => if v = "" then none else some v
  | none => none

/-- Python `str.startswith`. -/
def strStartsWith (s pre : String) : Bool :=
  pre.data.isPrefixOf s.data

def effectiveProtocol (p : ProxyRow) : String :=
  pyLower (pyStrOr p.protocol "http")

def choosePort (p : ProxyRow) : Option Nat :=
  if strStartsWith (effectiveProtocol p) "socks" then pyOrNat p.port_socks5 p.port_http
  else pyOrNat p.port_http p.port_socks5

/-- The ORDER BY key of the selection query:
`fail_count ASC, (last_used_at IS NULL) DESC, last_used_at ASC, id ASC`. -/
def proxyKey (p : ProxyRow) : Nat × Nat × Nat × Nat :=
  (p.fail_count, match p.last_used_at with | none => 0 | some _ => 1,
   p.last_used_at.getD 0, p.id)

def keyLt (a b : Nat × Nat × Nat × Nat) : Bool :=
  if a.1 ≠ b.1 then decide (a.1 < b.1)
  else if a.2.1 ≠ b.2.1 then decide (a.2.1 < b.2.1)
  else if a.2.2.1 ≠ b.2.2.1 then decide (a.2.2.1 < b.2.2.1)
  else decide (a.2.2.2 < b.2.2.2)

def proxyMinStep (acc : Option ProxyRow) (r : ProxyRow) : Option ProxyRow :=
  match acc with
  | none => some r
  | some b => if keyLt (proxyKey r) (proxyKey b) then some r else some b

/-- `SELECT ... WHERE is_active ORDER BY key LIMIT 1`: the leftmost row with
minimal key among active rows (row ids are unique in the database, so the
minimum is the unique first row of the ordered result). -/
def selectProxyFrom (rows : List ProxyRow) : Option ProxyRow :=
  (rows.filter (fun r => r.is_active)).foldl proxyMinStep none

structure ProxyLaunchConfig where
  id : Nat
  label : String
  protocol : String
  server : String
  username : Option String
  password : Option String
deriving DecidableEq, Repr

/-- The body of `get_next_proxy_for_launch` after the selected row is in
hand: `None` when host or port are unusable, otherwise the launch config. -/
def launchFromRow (p : ProxyRow) : Option ProxyLaunchConfig :=
  match choosePort p with
  | none => none
  | some port =>
    if p.host = "" ∨ port = 0 then none
    else
      some { id := p.id
             label := match p.label with
               | some s => if s = "" then p.host ++ ":" ++ toString port else s
               | none => p.host ++ ":" ++ toString port
             protocol := effectiveProtocol p
             server := effectiveProtocol p ++ "://" ++ p.host ++ ":" ++ toString port
             username := pyOptStrOrNone p.username
             password := pyOptStrOrNone p.password }

/-- `get_next_proxy_for_launch` (result value only; the `last_used_at`
stamping commit is a side effect on the selected row). -/
def getNextProxyForLaunch (rows : List ProxyRow) : Option ProxyLaunchConfig :=
  match selectProxyFrom rows with
  | none => none
  | some p => launchFromRow p

/-! ### prmoney_worker._poll_prmoney_once

`PrItem` is the already-normalized `PrmoneyInvoice` (its `status` field is
an `int` after `normalize_status`).  The cycle filters to `status == 0 and
id > last_id`, sorts ascending by id (`list.sort` is modelled by insertion
sort — the result is identical since ids are the sort key), inserts each in
order, and persists the watermark only when it increased. -/

structure PrItem where
  id : Nat
  status : Int
  amount : Int
deriving DecidableEq, Repr

def prItemLe (a b : PrItem) : Prop := a.id ≤ b.id

instance : DecidableRel prItemLe := fun a b => Nat.decLe a.id b.id

instance : IsTotal PrItem prItemLe := ⟨fun a b => Nat.le_total a.id b.id⟩

instance : IsTrans PrItem prItemLe := ⟨fun _ _ _ => Nat.le_trans⟩

/-- The `max_id` accumulation loop over the processed items. -/
def maxIdFold (m : Nat) (l : List PrItem) : Nat :=
  l.foldl (fun acc it => if acc < it.id then it.id else acc) m

/-- One poll cycle: the items considered for insertion (in processing
order), the stored watermark after the cycle, and whether the stored value
was rewritten. -/
def pollPrmoneyOnce (lastId : Nat) (fetched : List PrItem) :
    List PrItem × Nat × Bool :=
  if fetched.isEmpty then ([], lastId, false)
  else
    let newItems := fetched.filter (fun it => decide (it.status = 0 ∧ lastId < it.id))
    if newItems.isEmpty then ([], lastId, false)
    else
      let sorted := List.insertionSort prItemLe newItems
      let maxId := maxIdFold lastId sorted
      if lastId < maxId then (sorted, maxId, true) else (sorted, lastId, false)

/-! ### multitransfer_step4._extract_deeplink_from_text

The regex `([a-zA-Z][a-zA-Z0-9+.\-]*://[^\s"'<>]+)` is embedded directly:
at a match position, the scheme run is the maximal run of scheme characters
(which cannot contain `:`, so maximal munch is exact), followed by the
literal `://`, followed by the maximal nonempty run of characters that are
not whitespace, `"`, `'`, `<` or `>` (nothing follows in the pattern, so
greedy is exact).  `re.findall` scanning is modelled by `scanUrls`: on a
match, continue after it; on a failed attempt, shift one character. -/

def schemeChar (c : Char) : Bool :=
  c.isAlpha || c.isDigit || c = '+' || c = '.' || c = '-'

def urlTailChar (c : Char) : Bool :=
  !(pyWsChar c || c = '"' || c = '\x27' || c = '<' || c = '>')

def matchUrlAt (cs : List Char) : Option (List Char × List Char) :=
  match cs with
  | [] => none
  | c :: rest =>
    if c.isAlpha then
      let run := rest.takeWhile schemeChar
      match rest.dropWhile schemeChar with
      | ':' :: '/' :: '/' :: tail =>
        let urlTail := tail.takeWhile urlTailChar
        if urlTail.isEmpty then none
        else some (c :: run ++ ':' :: '/' :: '/' :: urlTail, tail.drop urlTail.length)
      | _ => none
    else none

/-- Fuel-indexed scan; every step strictly shrinks the character list, so
fuel `length + 1` always suffices and the `0` case is unreachable. -/
def scanUrls : Nat → List Char → List (List Char)
  | 0, _ => []
  | _ + 1, [] => []
  | fuel + 1, c :: rest =>
    match matchUrlAt (c :: rest) with
    | some (url, restAfter) => url :: scanUrls fuel restAfter
    | none => scanUrls fuel rest

def findallDeeplinkCandidates (s : String) : List String :=
  (scanUrls (s.data.length + 1) s.data).map String.mk

/-- `url.strip().strip("',\"()[]{}")`. -/
def deeplinkTrimChars : List Char :=
  ['\x27', ',', '"', '(', ')', '[', ']', '\x7b', '\x7d']

def cleanUrl (s : String) : String :=
  String.mk (trimCharsBy (fun c => deeplinkTrimChars.contains c)
    (trimCharsBy pyWsChar s.data))

def containsSub (pat s : String) : Bool :=
  s.data.tails.any (fun t => pat.data.isPrefixOf t)

def DEEP_LINK_KEYWORDS : List String :=
  ["qr.nspk.ru", "SBPQR://", "sbpqr://", "mcash://"]

def hasDeeplinkKeyword (url : String) : Bool :=
  DEEP_LINK_KEYWORDS.any (fun k => containsSub k url)

def extractDeeplinkFromText (text : String) : Option String :=
  if text = "" then none
  else
    let candidates := findallDeeplinkCandidates text
    if candidates.isEmpty then none
    else
      candidates.findSome? (fun raw =>
        let url := cleanUrl raw
        if hasDeeplinkKeyword url then some url else none)

/-! ### multitransfer_step3._normalize_date_for_multitransfer

`datetime.strptime` for the five formats is embedded as a small
backtracking token matcher mirroring CPython's `_strptime` regexes:
`%d` = `3[01]|[12]\d|0[1-9]|[1-9]| [1-9]`, `%m` = `1[0-2]|0[1-9]|[1-9]`,
`%Y` = `\d\d\d\d`, `%H` = `2[0-3]|[0-1]\d|\d`, `%M`/`%S` = `[0-5]\d|\d`,
format whitespace matches a nonempty whitespace run, the whole input must
be consumed, and the resulting (year, month, day) must form a valid
calendar date with year in `1..9999` (the `datetime` constructor raises
otherwise).  `strftime("%d.%m.%Y")` zero-pads day and month to two digits
and the year to four. -/

inductive DTok where
  | day | month | year4 | hour | minute | second
  | lit (c : Char)
  | ws
deriving DecidableEq, Repr

structure DParsed where
  y : Nat
  m : Nat
  d : Nat
deriving DecidableEq, Repr

/-- `strptime` defaults: 1900-01-01 (every format here binds all three). -/
def initParsed : DParsed := ⟨1900, 1, 1⟩

def digitVal (c : Char) : Nat := c.toNat - 48

def isDig19 (c : Char) : Bool := decide ('1' ≤ c) && decide (c ≤ '9')

def dayPat2 (c1 c2 : Char) : Bool :=
  (c1 = '3' && (c2 = '0' || c2 = '1')) ||
  ((c1 = '1' || c1 = '2') && c2.isDigit) ||
  (c1 = '0' && isDig19 c2)

def monthPat2 (c1 c2 : Char) : Bool :=
  (c1 = '1' && (c2 = '0' || c2 = '1' || c2 = '2')) ||
  (c1 = '0' && isDig19 c2)

def hourPat2 (c1 c2 : Char) : Bool :=
  (c1 = '2' && (c2 = '0' || c2 = '1' || c2 = '2' || c2 = '3')) ||
  ((c1 = '0' || c1 = '1') && c2.isDigit)

def minsecPat2 (c1 c2 : Char) : Bool :=
  decide ('0' ≤ c1) && decide (c1 ≤ '5') && c2.isDigit

/-- The alternatives a token can match at the head of the input, in the
alternation order of the CPython regex: each entry is (bound value, rest of
the input). -/
def tokCandidates : DTok → List Char → List (Nat × List Char)
  | .day, c1 :: c2 :: rest =>
      (if dayPat2 c1 c2 then [(10 * digitVal c1 + digitVal c2, rest)] else []) ++
      (if isDig19 c1 then [(digitVal c1, c2 :: rest)] else []) ++
      (if c1 = ' ' && isDig19 c2 then [(digitVal c2, rest)] else [])
  | .day, [c1] => if isDig19 c1 then [(digitVal c1, [])] else []
  | .day, [] => []
  | .month, c1 :: c2 :: rest =>
      (if monthPat2 c1 c2 then [(10 * digitVal c1 + digitVal c2, rest)] else []) ++
      (if isDig19 c1 then [(digitVal c1, c2 :: rest)] else [])
  | .month, [c1] => if isDig19 c1 then [(digitVal c1, [])] else []
  | .month, [] => []
  | .year4, c1 :: c2 :: c3 :: c4 :: rest =>
      if c1.isDigit && c2.isDigit && c3.isDigit && c4.isDigit then
        [(1000 * digitVal c1 + 100 * digitVal c2 + 10 * digitVal c3 + digitVal c4, rest)]
      else []
  | .year4, _ => []
  | .hour, c1 :: c2 :: rest =>
      (if hourPat2 c1 c2 then [(10 * digitVal c1 + digitVal c2, rest)] else []) ++
      (if c1.isDigit then [(digitVal c1, c2 :: rest)] else [])
  | .hour, [c1] => if c1.isDigit then [(digitVal c1, [])] else []
  | .hour, [] => []
  | .minute, c1 :: c2 :: rest =>
      (if minsecPat2 c1 c2 then [(10 * digitVal c1 + digitVal c2, rest)] else []) ++
      (if c1.isDigit then [(digitVal c1, c2 :: rest)] else [])
  | .minute, [c1] => if c1.isDigit then [(digitVal c1, [])] else []
  | .minute, [] => []
  | .second, c1 :: c2 :: rest =>
      (if minsecPat2 c1 c2 then [(10 * digitVal c1 + digitVal c2, rest)] else []) ++
      (if c1.isDigit then [(digitVal c1, c2 :: rest)] else [])
  | .second, [c1] => if c1.isDigit then [(digitVal c1, [])] else []
  | .second, [] => []
  | .lit c, c1 :: rest => if c1 = c then [(0, rest)] else []
  | .lit _, [] => []
  | .ws, cs =>
      let m := (cs.takeWhile pyWsChar).length
      (List.range m).map (fun i => (0, cs.drop (m - i)))

def storeTok (t : DTok) (v : Nat) (p : DParsed) : DParsed :=
  match t with
  | .day => { p with d := v }
  | .month => { p with m := v }
  | .year4 => { p with y := v }
  | _ => p

def runToks : List DTok → List Char → DParsed → Option DParsed
  | [], cs, p => if cs.isEmpty then some p else none
  | t :: ts, cs, p =>
      (tokCandidates t cs).findSome? (fun vr => runToks ts vr.2 (storeTok t vr.1 p))

def isLeapYear (y : Nat) : Bool :=
  (y % 4 = 0 && y % 100 ≠ 0) || y % 400 = 0

def daysInMonth (y m : Nat) : Nat :=
  if m = 2 then (if isLeapYear y then 29 else 28)
  else if m = 4 ∨ m = 6 ∨ m = 9 ∨ m = 11 then 30
  else 31

def validDate (y m d : Nat) : Bool :=
  decide (1 ≤ y) && decide (y ≤ 9999) && decide (1 ≤ m) && decide (m ≤ 12) &&
  decide (1 ≤ d) && decide (d ≤ daysInMonth y m)

def tryFormat (toks : List DTok) (cs : List Char) : Option DParsed :=
  match runToks toks cs initParsed with
  | some p => if validDate p.y p.m p.d then some p else none
  | none => none

def fmtDMYdot : List DTok := [.day, .lit '.', .month, .lit '.', .year4]

def fmtYMDdash : List DTok := [.year4, .lit '-', .month, .lit '-', .day]

def fmtYMDdashTime : List DTok :=
  [.year4, .lit '-', .month, .lit '-', .day, .ws,
   .hour, .lit ':', .minute, .lit ':', .second]

def fmtDMYdash : List DTok := [.day, .lit '-', .month, .lit '-', .year4]

def fmtYMDdot : List DTok := [.year4, .lit '.', .month, .lit '.', .day]

def pad2 (n : Nat) : List Char :=
  if n < 10 then ['0', Nat.digitChar n]
  else [Nat.digitChar (n / 10), Nat.digitChar (n % 10)]

def pad4 (n : Nat) : List Char :=
  [Nat.digitChar (n / 1000 % 10), Nat.digitChar (n / 100 % 10),
   Nat.digitChar (n / 10 % 10), Nat.digitChar (n % 10)]

def formatDMYChars (p : DParsed) : List Char :=
  pad2 p.d ++ '.' :: (pad2 p.m ++ '.' :: pad4 p.y)

def formatDMY (p : DParsed) : String := String.mk (formatDMYChars p)

/-- The first-matching-format cascade of the function: the special-cased
`%d.%m.%Y` attempt followed by the candidate loop in source order. -/
def tryFormatsChain (cs : List Char) : Option DParsed :=
  match tryFormat fmtDMYdot cs with
  | some p => some p
  | none =>
    match tryFormat fmtYMDdash cs with
    | some p => some p
    | none =>
      match tryFormat fmtYMDdashTime cs with
      | some p => some p
      | none =>
        match tryFormat fmtDMYdash cs with
        | some p => some p
        | none => tryFormat fmtYMDdot cs

def normalizeDateForMultitransfer (value : Option String) : Option String :=
  match value with
  | none => none
  | some s =>
    if s = "" then none
    else
      let raw := pyStrip s
      if raw = "" then none
      else
        match tryFormatsChain raw.data with
        | some p => some (formatDMY p)
        | none => some raw

/-- All five formats fail on an (already stripped) string. -/
def noFormatMatches (cs : List Char) : Bool :=
  (tryFormat fmtDMYdot cs).isNone && (tryFormat fmtYMDdash cs).isNone &&
  (tryFormat fmtYMDdashTime cs).isNone && (tryFormat fmtDMYdash cs).isNone &&
  (tryFormat fmtYMDdot cs).isNone

/-! ### Sample rows used by concrete counterexamples and witnesses -/

def mkInvoice (id : Nat) (status : String) : Invoice :=
  { id := id, invoice_id := toString id, amount := 100, currency := "RUB",
    recipient_country := "Uzbekistan", recipient_bank := "UZUM Bank",
    recipient_card_number := "8600000000000000", recipient_name := "N",
    sender_name := "S", sender_phone := "+79990000000", status := status,
    deeplink := none, error_message := none, created_at := 0 }

def errorCallbackPayload : DeeplinkPayload :=
  { invoice_id := 1, invoice_external_id := "7", amount := 6000, currency := "643",
    deeplink := "https://qr.nspk.ru/x", status := "error",
    created_at := "2025-12-01T21:15:22" }

def createdCallbackPayload : DeeplinkPayload :=
  { invoice_id := 1, invoice_external_id := "2640797", amount := 6000, currency := "643",
    deeplink := "https://qr.nspk.ru/AD10001", status := "",
    created_at := "2025-12-01T21:15:22" }

/-! ## Claim theorems -/

/-- C1, counterexample: the claim asserts that of the statuses `0`, `"0"`,
`"queued"`, `"done"`, `5`, `"PENDING"` exactly the first four are retained;
but `_is_pending_status` rejects `"done"` (not a pending word) and retains
`"PENDING"` (case-insensitive match of `"pending"`). -/
theorem c1_pending_example_counterexample :
    isPendingStatus (PyVal.str "done") = false ∧
    isPendingStatus (PyVal.str "PENDING") = true := by decide

/-- C1 (amended): the pending filter retains an item exactly when its
status is the integer 0, or a string that after trimming and lowercasing is
one of "0", "queued", "pending", "waiting"; of the example statuses `0`,
`"0"`, `"queued"`, `"done"`, `5`, `"PENDING"`, exactly `0`, `"0"`,
`"queued"` and `"PENDING"` are retained and `"done"` and `5` excluded. -/
theorem pending_status_filter_spec :
    (∀ v : PyVal, isPendingStatus v = true ↔
      (v = PyVal.int 0 ∨ ∃ s, v = PyVal.str s ∧
        (pyLower (pyStrip s) = "0" ∨ pyLower (pyStrip s) = "queued" ∨
         pyLower (pyStrip s) = "pending" ∨ pyLower (pyStrip s) = "waiting"))) ∧
    [PyVal.int 0, PyVal.str "0", PyVal.str "queued", PyVal.str "done",
     PyVal.int 5, PyVal.str "PENDING"].map isPendingStatus =
      [true, true, true, false, false, true] := by
  refine ⟨fun v => ?_, by decide⟩
  cases v with
  | int n =>
    simp only [isPendingStatus, decide_eq_true_eq]
    constructor
    · intro h; exact Or.inl (by simp [h])
    · rintro (h | ⟨s, h, _⟩)
      · cases h; rfl
      · cases h
  | str s =>
    simp only [isPendingStatus]
    constructor
    · intro h
      refine Or.inr ⟨s, rfl, ?_⟩
      by_cases hc : pendingStatusStrings.contains (pyLower (pyStrip s)) = true
      · have hm : pyLower (pyStrip s) ∈ pendingStatusStrings := List.elem_iff.mp hc
        simpa [pendingStatusStrings] using hm
      · rw [if_neg hc] at h
        exact absurd h (by simp)
    · rintro (h | ⟨t, ht, h⟩)
      · cases h
      · cases ht
        have hm : pyLower (pyStrip s) ∈ pendingStatusStrings := by
          rcases h with h | h | h | h <;> simp [pendingStatusStrings, h]
        rw [if_pos (List.elem_iff.mpr hm)]
  | other =>
    simp only [isPendingStatus]
    constructor
    · intro h; cases h
    · rintro (h | ⟨s, h, _⟩) <;> cases h

/-- C1 witness: the amended characterisation applied at the concrete status
string `" Waiting "`. -/
theorem pending_status_filter_spec_witness :
    isPendingStatus (PyVal.str " Waiting ") = true :=
  (pending_status_filter_spec.1 (PyVal.str " Waiting ")).mpr
    (Or.inr ⟨" Waiting ", rfl, Or.inr (Or.inr (Or.inr (by decide)))⟩)

/-- C2: `_has_captcha` reports a captcha on every page state (its final
fallback returns `True`, making the negative branch unreachable), and
`process_captcha_if_needed` returns the truthy proceed signal on every page
state. -/
theorem captcha_always_present :
    ∀ p : PageState, hasCaptcha p = true ∧ processCaptchaIfNeeded p = true := by
  intro p
  rcases p with ⟨a, b, c, d, e⟩
  cases a <;> cases b <;> cases c <;> cases d <;> cases e <;> exact ⟨rfl, rfl⟩

/-- C3, counterexample: two invoice databases that differ in their number
of `"processed"`-status invoices (one vs zero) produce identical dashboard
data, so the dashboard includes no count of invoices with status
`"processed"`. -/
theorem c3_processed_count_counterexample :
    adminDashboard [mkInvoice 1 "processed", mkInvoice 2 "zzz"] [] =
      adminDashboard [mkInvoice 1 "done", mkInvoice 2 "zzz"] [] ∧
    ([mkInvoice 1 "processed", mkInvoice 2 "zzz"].filter
        (fun i => i.status = "processed")).length ≠
      ([mkInvoice 1 "done", mkInvoice 2 "zzz"].filter
        (fun i => i.status = "processed")).length := by decide

/-- C3 (amended): the dashboard reports exactly the total invoice count,
the counts of invoices with status "queued", "processing",
"waiting_captcha" and "error", and the proxy count; no count of the status
literal "processed" is computed — the dashboard cannot distinguish a
"processed" invoice from one with any other uncounted status. -/
theorem dashboard_counts_spec :
    (∀ (invoices : List Invoice) (proxies : List ProxyRow),
      (adminDashboard invoices proxies).total = invoices.length ∧
      (adminDashboard invoices proxies).queued =
        invoices.countP (fun i => i.status = "queued") ∧
      (adminDashboard invoices proxies).processing =
        invoices.countP (fun i => i.status = "processing") ∧
      (adminDashboard invoices proxies).waiting =
        invoices.countP (fun i => i.status = "waiting_captcha") ∧
      (adminDashboard invoices proxies).error =
        invoices.countP (fun i => i.status = "error") ∧
      (adminDashboard invoices proxies).proxies = proxies.length) ∧
    (∀ (invoices : List Invoice) (proxies : List ProxyRow) (inv1 inv2 : Invoice),
      inv1.status = "processed" → inv2.status = "done" →
      adminDashboard (inv1 :: invoices) proxies =
        adminDashboard (inv2 :: invoices) proxies) := by
  constructor
  · intro invoices proxies
    refine ⟨rfl, ?_, ?_, ?_, ?_, rfl⟩ <;>
      simp [adminDashboard, List.countP_eq_length_filter]
  · intro invoices proxies inv1 inv2 h1 h2
    simp [adminDashboard, List.filter_cons, h1, h2]

/-- C3 witness: the invariance part applied with one concrete "processed"
invoice against one concrete "done" invoice. -/
theorem dashboard_counts_spec_witness :
    adminDashboard [mkInvoice 1 "processed"] [] = adminDashboard [mkInvoice 1 "done"] [] :=
  dashboard_counts_spec.2 [] [] (mkInvoice 1 "processed") (mkInvoice 1 "done") rfl rfl

/-- C4, counterexample: the deeplink callback endpoint, handed a payload
with status `"error"` and a nonempty deeplink, stores the payload's
deeplink on the invoice — the deeplink is not cleared on this error path. -/
theorem c4_error_clears_deeplink_counterexample :
    (invoiceDeeplinkCallbackUpdate errorCallbackPayload (mkInvoice 1 "processing")).status =
      "error" ∧
    (invoiceDeeplinkCallbackUpdate errorCallbackPayload (mkInvoice 1 "processing")).deeplink =
      some "https://qr.nspk.ru/x" := by decide

/-- C4 (amended): the agent's central error finalization and Step 4's
failure-path invoice update set status "error" with the deeplink cleared to
absent, but the inbound deeplink callback endpoint always writes the
payload's deeplink — also when the payload's status is "error" — so the
deeplink is absent after that endpoint only when the payload's deeplink
field is itself the value stored. -/
theorem error_status_deeplink_spec :
    (∀ (inv : Invoice) (msg : String),
      (finalizeInvoiceErrorAnyStep inv msg).status = "error" ∧
      (finalizeInvoiceErrorAnyStep inv msg).deeplink = none ∧
      (finalizeInvoiceErrorAnyStep inv msg).error_message = some msg) ∧
    (∀ (inv : Invoice) (msg : String),
      (step4FinalizeError inv msg).status = "error" ∧
      (step4FinalizeError inv msg).deeplink = none ∧
      (step4FinalizeError inv msg).error_message = some msg) ∧
    (∀ (payload : DeeplinkPayload) (inv : Invoice),
      (invoiceDeeplinkCallbackUpdate payload inv).deeplink = some payload.deeplink ∧
      (invoiceDeeplinkCallbackUpdate payload inv).status =
        (if payload.status = "" then "created" else payload.status)) := by
  refine ⟨fun inv msg => ⟨rfl, rfl, rfl⟩, fun inv msg => ⟨rfl, rfl, rfl⟩,
    fun payload inv => ⟨rfl, rfl⟩⟩

/-- C10: when the deeplink callback matches an existing invoice, the write
is exactly the deeplink/status update: deeplink becomes the payload's
deeplink, status becomes the payload's status ("created" when that is
empty), and every other invoice field — amounts, currency, identifiers,
recipient and sender data, error message, creation timestamp — is left
unchanged even though the payload carries amount, currency and created_at
values. -/
theorem deeplink_callback_frame_spec :
    ∀ (payload : DeeplinkPayload) (db : List Invoice) (inv : Invoice),
      findInvoiceForCallback payload db = some inv →
      invoiceDeeplinkCallback payload db =
        some (invoiceDeeplinkCallbackUpdate payload inv) ∧
      (invoiceDeeplinkCallbackUpdate payload inv).id = inv.id ∧
      (invoiceDeeplinkCallbackUpdate payload inv).invoice_id = inv.invoice_id ∧
      (invoiceDeeplinkCallbackUpdate payload inv).amount = inv.amount ∧
      (invoiceDeeplinkCallbackUpdate payload inv).currency = inv.currency ∧
      (invoiceDeeplinkCallbackUpdate payload inv).recipient_country =
        inv.recipient_country ∧
      (invoiceDeeplinkCallbackUpdate payload inv).recipient_bank = inv.recipient_bank ∧
      (invoiceDeeplinkCallbackUpdate payload inv).recipient_card_number =
        inv.recipient_card_number ∧
      (invoiceDeeplinkCallbackUpdate payload inv).recipient_name = inv.recipient_name ∧
      (invoiceDeeplinkCallbackUpdate payload inv).sender_name = inv.sender_name ∧
      (invoiceDeeplinkCallbackUpdate payload inv).sender_phone = inv.sender_phone ∧
      (invoiceDeeplinkCallbackUpdate payload inv).error_message = inv.error_message ∧
      (invoiceDeeplinkCallbackUpdate payload inv).created_at = inv.created_at ∧
      (invoiceDeeplinkCallbackUpdate payload inv).deeplink = some payload.deeplink ∧
      (invoiceDeeplinkCallbackUpdate payload inv).status =
        (if payload.status = "" then "created" else payload.status) := by
  intro payload db inv h
  unfold invoiceDeeplinkCallback
  rw [h]
  exact ⟨rfl, rfl, rfl, rfl, rfl, rfl, rfl, rfl, rfl, rfl, rfl, rfl, rfl, rfl, rfl⟩

/-- C10 witness: the frame property applied to a concrete database holding
the matched invoice, with an empty payload status defaulting to
"created". -/
theorem deeplink_callback_frame_spec_witness :
    invoiceDeeplinkCallback createdCallbackPayload [mkInvoice 1 "waiting_captcha"] =
      some (invoiceDeeplinkCallbackUpdate createdCallbackPayload
        (mkInvoice 1 "waiting_captcha")) :=
  (deeplink_callback_frame_spec createdCallbackPayload [mkInvoice 1 "waiting_captcha"]
    (mkInvoice 1 "waiting_captcha") (by decide)).1

/-- C5: each failure report increments `fail_count`, stamps `last_used_at`,
and deactivates the proxy once the count reaches 3; a success report resets
the count to 0, reactivates, and stamps `last_used_at`; three consecutive
failures from a fresh proxy end at `fail_count = 3, is_active = false`, and
one subsequent success resets it. -/
theorem proxy_health_spec :
    (∀ (t : Nat) (p : ProxyHealth),
      (markProxyFail t p).fail_count = p.fail_count + 1 ∧
      (markProxyFail t p).last_used_at = some t ∧
      (3 ≤ p.fail_count + 1 → (markProxyFail t p).is_active = false) ∧
      (p.fail_count + 1 < 3 → (markProxyFail t p).is_active = p.is_active)) ∧
    (∀ (t : Nat) (p : ProxyHealth),
      (markProxySuccess t p).fail_count = 0 ∧
      (markProxySuccess t p).is_active = true ∧
      (markProxySuccess t p).last_used_at = some t) ∧
    (∀ (p : ProxyHealth) (t1 t2 t3 t4 : Nat),
      p.fail_count = 0 → p.is_active = true →
      (markProxyFail t3 (markProxyFail t2 (markProxyFail t1 p))).fail_count = 3 ∧
      (markProxyFail t3 (markProxyFail t2 (markProxyFail t1 p))).is_active = false ∧
      (markProxyFail t3 (markProxyFail t2 (markProxyFail t1 p))).last_used_at = some t3 ∧
      markProxySuccess t4 (markProxyFail t3 (markProxyFail t2 (markProxyFail t1 p))) =
        ⟨0, true, some t4⟩) := by
  refine ⟨fun t p => ⟨rfl, rfl, ?_, ?_⟩, fun t p => ⟨rfl, rfl, rfl⟩, ?_⟩
  · intro h
    simp [markProxyFail, h]
  · intro h
    have : ¬ 3 ≤ p.fail_count + 1 := by omega
    simp [markProxyFail, this]
  · intro p t1 t2 t3 t4 h0 _
    simp [markProxyFail, markProxySuccess, h0]

/-- C5 witness: the three-failures-then-success scenario applied at a fresh
concrete proxy. -/
theorem proxy_health_spec_witness :
    (markProxyFail 3 (markProxyFail 2 (markProxyFail 1 ⟨0, true, none⟩))).fail_count = 3 ∧
    (markProxyFail 3 (markProxyFail 2 (markProxyFail 1 ⟨0, true, none⟩))).is_active = false ∧
    markProxySuccess 4 (markProxyFail 3 (markProxyFail 2 (markProxyFail 1 ⟨0, true, none⟩))) =
      ⟨0, true, some 4⟩ := by
  have h := proxy_health_spec.2.2 ⟨0, true, none⟩ 1 2 3 4 rfl rfl
  exact ⟨h.1, h.2.1, h.2.2.2⟩

/-! ### Lemmas about the proxy-selection fold -/

/-- The ORDER BY key comparison as a proposition. -/
def keyLtP (a b : Nat × Nat × Nat × Nat) : Prop :=
  a.1 < b.1 ∨ (a.1 = b.1 ∧ (a.2.1 < b.2.1 ∨ (a.2.1 = b.2.1 ∧
    (a.2.2.1 < b.2.2.1 ∨ (a.2.2.1 = b.2.2.1 ∧ a.2.2.2 < b.2.2.2)))))

theorem keyLt_iff (a b : Nat × Nat × Nat × Nat) : keyLt a b = true ↔ keyLtP a b := by
  unfold keyLt keyLtP
  split_ifs with h1 h2 h3 <;> simp_all

theorem keyLt_irrefl (a : Nat × Nat × Nat × Nat) : keyLt a a = false := by
  rw [Bool.eq_false_iff]
  intro h
  rw [keyLt_iff] at h
  unfold keyLtP at h
  omega

theorem keyLt_asymm (a b : Nat × Nat × Nat × Nat) (h : keyLt a b = true) :
    keyLt b a = false := by
  rw [Bool.eq_false_iff]
  intro h2
  rw [keyLt_iff] at h h2
  unfold keyLtP at h h2
  omega

theorem keyLt_trans (a b c : Nat × Nat × Nat × Nat) (h1 : keyLt a b = true)
    (h2 : keyLt b c = true) : keyLt a c = true := by
  rw [keyLt_iff] at h1 h2 ⊢
  unfold keyLtP at h1 h2 ⊢
  omega

theorem proxyMinStep_none (r : ProxyRow) : proxyMinStep none r = some r := rfl

theorem proxyMinStep_some (b r : ProxyRow) :
    proxyMinStep (some b) r =
      if keyLt (proxyKey r) (proxyKey b) then some r else some b := rfl

theorem proxyFold_mem : ∀ (l : List ProxyRow) (b p : ProxyRow),
    l.foldl proxyMinStep (some b) = some p → p = b ∨ p ∈ l := by
  intro l
  induction l with
  | nil =>
    intro b p h
    simp only [List.foldl_nil] at h
    exact Or.inl (Option.some.inj h).symm
  | cons r rs ih =>
    intro b p h
    rw [List.foldl_cons, proxyMinStep_some] at h
    by_cases hk : keyLt (proxyKey r) (proxyKey b) = true
    · rw [if_pos hk] at h
      rcases ih r p h with h1 | h1
      · exact Or.inr (h1 ▸ List.mem_cons_self r rs)
      · exact Or.inr (List.mem_cons_of_mem r h1)
    · rw [if_neg hk] at h
      rcases ih b p h with h1 | h1
      · exact Or.inl h1
      · exact Or.inr (List.mem_cons_of_mem r h1)

theorem proxyFold_min : ∀ (l : List ProxyRow) (b p : ProxyRow),
    l.foldl proxyMinStep (some b) = some p →
    (keyLt (proxyKey p) (proxyKey b) = true ∨ p = b) ∧
    ∀ q ∈ l, keyLt (proxyKey q) (proxyKey p) = false := by
  intro l
  induction l with
  | nil =>
    intro b p h
    simp only [List.foldl_nil] at h
    refine ⟨Or.inr (Option.some.inj h).symm, ?_⟩
    intro q hq
    cases hq
  | cons r rs ih =>
    intro b p h
    rw [List.foldl_cons, proxyMinStep_some] at h
    by_cases hk : keyLt (proxyKey r) (proxyKey b) = true
    · rw [if_pos hk] at h
      obtain ⟨hle, hall⟩ := ih r p h
      constructor
      · rcases hle with hlt | heq
        · exact Or.inl (keyLt_trans _ _ _ hlt hk)
        · exact Or.inl (heq ▸ hk)
      · intro q hq
        rcases List.mem_cons.mp hq with rfl | hq2
        · rcases hle with hlt | heq
          · exact keyLt_asymm _ _ hlt
          · exact heq ▸ keyLt_irrefl _
        · exact hall q hq2
    · rw [if_neg hk] at h
      obtain ⟨hle, hall⟩ := ih b p h
      constructor
      · exact hle
      · intro q hq
        rcases List.mem_cons.mp hq with rfl | hq2
        · rw [Bool.eq_false_iff]
          intro hqp
          rcases hle with hlt | heq
          · exact hk (keyLt_trans _ _ _ hqp hlt)
          · exact hk (heq ▸ hqp)
        · exact hall q hq2

theorem proxyFold_none_spec (l : List ProxyRow) (p : ProxyRow)
    (h : l.foldl proxyMinStep none = some p) :
    p ∈ l ∧ ∀ q ∈ l, keyLt (proxyKey q) (proxyKey p) = false := by
  cases l with
  | nil => cases h
  | cons r rs =>
    rw [List.foldl_cons, proxyMinStep_none] at h
    obtain ⟨hle, hall⟩ := proxyFold_min rs r p h
    have hmem : p ∈ r :: rs := by
      rcases proxyFold_mem rs r p h with rfl | hm
      · exact List.mem_cons_self _ _
      · exact List.mem_cons_of_mem r hm
    refine ⟨hmem, ?_⟩
    intro q hq
    rcases List.mem_cons.mp hq with rfl | hq2
    · rcases hle with hlt | rfl
      · exact keyLt_asymm _ _ hlt
      · exact keyLt_irrefl _
    · exact hall q hq2

theorem selectProxyFrom_spec (rows : List ProxyRow) (p : ProxyRow)
    (h : selectProxyFrom rows = some p) :
    p ∈ rows.filter (fun r => r.is_active) ∧
    ∀ q ∈ rows.filter (fun r => r.is_active),
      keyLt (proxyKey q) (proxyKey p) = false :=
  proxyFold_none_spec _ p h

theorem launchFromRow_portNone (p : ProxyRow) (h : choosePort p = none) :
    launchFromRow p = none := by
  unfold launchFromRow
  rw [h]

theorem launchFromRow_portSome (p : ProxyRow) (port : Nat)
    (h : choosePort p = some port) :
    launchFromRow p =
      (if p.host = "" ∨ port = 0 then none
       else
         some { id := p.id
                label := match p.label with
                  | some s => if s = "" then p.host ++ ":" ++ toString port else s
                  | none => p.host ++ ":" ++ toString port
                protocol := effectiveProtocol p
                server := effectiveProtocol p ++ "://" ++ p.host ++ ":" ++ toString port
                username := pyOptStrOrNone p.username
                password := pyOptStrOrNone p.password }) := by
  unfold launchFromRow
  rw [h]

theorem getNext_selNone (rows : List ProxyRow) (h : selectProxyFrom rows = none) :
    getNextProxyForLaunch rows = none := by
  unfold getNextProxyForLaunch
  rw [h]

theorem getNext_selSome (rows : List ProxyRow) (p : ProxyRow)
    (h : selectProxyFrom rows = some p) :
    getNextProxyForLaunch rows = launchFromRow p := by
  unfold getNextProxyForLaunch
  rw [h]

/-- C6: browser-launch proxy selection considers only active rows and picks
a row whose ORDER BY key (ascending fail count, absent-last-used first,
ascending last-used, ascending id) is minimal among all active rows; it
yields no proxy when no active row exists or when the selected row has an
empty host or no usable port for its protocol; socks-prefixed protocols
prefer `port_socks5` and fall back to `port_http`, other protocols prefer
`port_http` and fall back to `port_socks5` (`0`-valued ports count as
missing, as in Python truthiness). -/
theorem proxy_selection_spec :
    (∀ (rows : List ProxyRow) (p : ProxyRow), selectProxyFrom rows = some p →
      p ∈ rows ∧ p.is_active = true ∧
      ∀ q ∈ rows, q.is_active = true → keyLt (proxyKey q) (proxyKey p) = false) ∧
    (∀ (rows : List ProxyRow) (cfg : ProxyLaunchConfig),
      getNextProxyForLaunch rows = some cfg →
      ∃ p, p ∈ rows ∧ p.is_active = true ∧ cfg.id = p.id) ∧
    (∀ rows : List ProxyRow, (∀ p ∈ rows, p.is_active = false) →
      getNextProxyForLaunch rows = none) ∧
    (∀ (rows : List ProxyRow) (p : ProxyRow), selectProxyFrom rows = some p →
      (p.host = "" ∨ choosePort p = none ∨ choosePort p = some 0) →
      getNextProxyForLaunch rows = none) ∧
    (∀ (p : ProxyRow) (n : Nat), strStartsWith (effectiveProtocol p) "socks" = true →
      p.port_socks5 = some n → n ≠ 0 → choosePort p = some n) ∧
    (∀ p : ProxyRow, strStartsWith (effectiveProtocol p) "socks" = true →
      (p.port_socks5 = none ∨ p.port_socks5 = some 0) → choosePort p = p.port_http) ∧
    (∀ (p : ProxyRow) (n : Nat), strStartsWith (effectiveProtocol p) "socks" = false →
      p.port_http = some n → n ≠ 0 → choosePort p = some n) ∧
    (∀ p : ProxyRow, strStartsWith (effectiveProtocol p) "socks" = false →
      (p.port_http = none ∨ p.port_http = some 0) → choosePort p = p.port_socks5) := by
  refine ⟨?_, ?_, ?_, ?_, ?_, ?_, ?_, ?_⟩
  · intro rows p h
    obtain ⟨hmem, hmin⟩ := selectProxyFrom_spec rows p h
    obtain ⟨hmem2, hact⟩ := List.mem_filter.mp hmem
    refine ⟨hmem2, hact, ?_⟩
    intro q hq hqa
    exact hmin q (List.mem_filter.mpr ⟨hq, hqa⟩)
  · intro rows cfg h
    rcases hsel : selectProxyFrom rows with _ | p
    · rw [getNext_selNone rows hsel] at h
      cases h
    · rw [getNext_selSome rows p hsel] at h
      obtain ⟨hmem, hmin⟩ := selectProxyFrom_spec rows p hsel
      obtain ⟨hmem2, hact⟩ := List.mem_filter.mp hmem
      refine ⟨p, hmem2, hact, ?_⟩
      rcases hport : choosePort p with _ | n
      · rw [launchFromRow_portNone p hport] at h
        cases h
      · rw [launchFromRow_portSome p n hport] at h
        by_cases hbad : p.host = "" ∨ n = 0
        · rw [if_pos hbad] at h
          cases h
        · rw [if_neg hbad] at h
          cases Option.some.inj h
          rfl
  · intro rows hall
    have hfil : rows.filter (fun r => r.is_active) = [] := by
      apply List.filter_eq_nil_iff.mpr
      intro a ha
      simp [hall a ha]
    have hsel : selectProxyFrom rows = none := by
      unfold selectProxyFrom
      rw [hfil]
      rfl
    exact getNext_selNone rows hsel
  · intro rows p hsel hbad
    rw [getNext_selSome rows p hsel]
    rcases hbad with hhost | hport | hport
    · rcases hport : choosePort p with _ | n
      · exact launchFromRow_portNone p hport
      · rw [launchFromRow_portSome p n hport]
        rw [if_pos (Or.inl hhost)]
    · exact launchFromRow_portNone p hport
    · rw [launchFromRow_portSome p 0 hport]
      rw [if_pos (Or.inr rfl)]
  · intro p n hsocks hs hn
    unfold choosePort
    rw [if_pos hsocks, hs]
    simp [pyOrNat, hn]
  · intro p hsocks hs
    unfold choosePort
    rw [if_pos hsocks]
    rcases hs with hs | hs <;> rw [hs] <;> simp [pyOrNat]
  · intro p n hsocks hs hn
    unfold choosePort
    rw [if_neg (by simp [hsocks]), hs]
    simp [pyOrNat, hn]
  · intro p hsocks hs
    unfold choosePort
    rw [if_neg (by simp [hsocks])]
    rcases hs with hs | hs <;> rw [hs] <;> simp [pyOrNat]

/-- Sample proxy pool for the C6 witness: one used zero-fail HTTP proxy,
one never-used zero-fail SOCKS proxy, one never-used two-fail proxy, one
inactive proxy. -/
def sampleSocksProxy : ProxyRow :=
  { id := 2, label := some "fresh", host := "b.example", port_http := none,
    port_socks5 := some 1080, username := some "u", password := some "",
    protocol := "SOCKS5", is_active := true, last_used_at := none, fail_count := 0 }

def sampleProxyRows : List ProxyRow :=
  [{ id := 1, label := none, host := "a.example", port_http := some 8080,
     port_socks5 := none, username := none, password := none, protocol := "http",
     is_active := true, last_used_at := some 5, fail_count := 0 },
   sampleSocksProxy,
   { id := 3, label := none, host := "c.example", port_http := some 1,
     port_socks5 := none, username := none, password := none, protocol := "http",
     is_active := true, last_used_at := none, fail_count := 2 },
   { id := 4, label := none, host := "d.example", port_http := some 2,
     port_socks5 := none, username := none, password := none, protocol := "http",
     is_active := false, last_used_at := none, fail_count := 0 }]

/-- C6 witness: selection and port choice applied to the concrete pool. -/
theorem proxy_selection_spec_witness :
    (sampleSocksProxy ∈ sampleProxyRows ∧ sampleSocksProxy.is_active = true ∧
      ∀ q ∈ sampleProxyRows, q.is_active = true →
        keyLt (proxyKey q) (proxyKey sampleSocksProxy) = false) ∧
    choosePort sampleSocksProxy = some 1080 :=
  ⟨proxy_selection_spec.1 sampleProxyRows sampleSocksProxy (by decide),
   proxy_selection_spec.2.2.2.2.1 sampleSocksProxy 1080 (by decide) (by decide)
     (by decide)⟩

/-! ### Lemmas about the PrMoney watermark cycle -/

theorem maxIdFold_cons (m : Nat) (r : PrItem) (rs : List PrItem) :
    maxIdFold m (r :: rs) = maxIdFold (if m < r.id then r.id else m) rs := rfl

theorem maxIdFold_le : ∀ (l : List PrItem) (m : Nat),
    m ≤ maxIdFold m l ∧ ∀ it ∈ l, it.id ≤ maxIdFold m l := by
  intro l
  induction l with
  | nil =>
    intro m
    refine ⟨Nat.le_refl m, ?_⟩
    intro it h
    cases h
  | cons r rs ih =>
    intro m
    rw [maxIdFold_cons]
    refine ⟨le_trans (by split <;> omega) (ih _).1, ?_⟩
    intro it hit
    rcases List.mem_cons.mp hit with rfl | h2
    · exact le_trans (by split <;> omega) (ih _).1
    · exact (ih _).2 it h2

theorem maxIdFold_mem : ∀ (l : List PrItem) (m : Nat),
    maxIdFold m l = m ∨ ∃ it ∈ l, it.id = maxIdFold m l := by
  intro l
  induction l with
  | nil =>
    intro m
    exact Or.inl rfl
  | cons r rs ih =>
    intro m
    rw [maxIdFold_cons]
    rcases ih (if m < r.id then r.id else m) with h | ⟨it, hit, hid⟩
    · rw [h]
      by_cases hlt : m < r.id
      · rw [if_pos hlt]
        exact Or.inr ⟨r, List.mem_cons_self _ _, rfl⟩
      · rw [if_neg hlt]
        exact Or.inl rfl
    · exact Or.inr ⟨it, List.mem_cons_of_mem r hit, hid⟩

/-- The first (fetch empty) guard of the cycle is subsumed by the
second (no new items) guard, giving one unconditional equation. -/
theorem pollPrmoneyOnce_eq (lastId : Nat) (fetched : List PrItem) :
    pollPrmoneyOnce lastId fetched =
      (if (fetched.filter (fun it => decide (it.status = 0 ∧ lastId < it.id))).isEmpty
       then ([], lastId, false)
       else
         let sorted := List.insertionSort prItemLe
           (fetched.filter (fun it => decide (it.status = 0 ∧ lastId < it.id)))
         let maxId := maxIdFold lastId sorted
         if lastId < maxId then (sorted, maxId, true) else (sorted, lastId, false)) := by
  unfold pollPrmoneyOnce
  by_cases hf : fetched.isEmpty = true
  · have hnil : fetched = [] := List.isEmpty_iff.mp hf
    subst hnil
    simp
  · rw [if_neg hf]

/-- C9: one DB-watermark PrMoney poll cycle considers exactly the fetched
items with integer status 0 and id above the stored watermark, processes
them in ascending id order, ends with the watermark equal to the maximum id
among the considered items, and rewrites the stored watermark value only
when it increased; fetching ids 98/101/105 (all pending) over watermark 100
considers exactly 101 and 105 and advances the watermark to 105. -/
theorem prmoney_watermark_spec :
    (∀ (lastId : Nat) (fetched : List PrItem),
      ((pollPrmoneyOnce lastId fetched).1).Perm
        (fetched.filter (fun it => decide (it.status = 0 ∧ lastId < it.id)))) ∧
    (∀ (lastId : Nat) (fetched : List PrItem),
      List.Sorted prItemLe (pollPrmoneyOnce lastId fetched).1) ∧
    (∀ (lastId : Nat) (fetched : List PrItem) (it : PrItem),
      it ∈ (pollPrmoneyOnce lastId fetched).1 →
      it ∈ fetched ∧ it.status = 0 ∧ lastId < it.id) ∧
    (∀ (lastId : Nat) (fetched : List PrItem),
      (pollPrmoneyOnce lastId fetched).1 = [] →
      (pollPrmoneyOnce lastId fetched).2.1 = lastId ∧
      (pollPrmoneyOnce lastId fetched).2.2 = false) ∧
    (∀ (lastId : Nat) (fetched : List PrItem),
      (pollPrmoneyOnce lastId fetched).1 ≠ [] →
      (∃ it ∈ (pollPrmoneyOnce lastId fetched).1,
        it.id = (pollPrmoneyOnce lastId fetched).2.1) ∧
      (∀ it ∈ (pollPrmoneyOnce lastId fetched).1,
        it.id ≤ (pollPrmoneyOnce lastId fetched).2.1) ∧
      lastId < (pollPrmoneyOnce lastId fetched).2.1 ∧
      (pollPrmoneyOnce lastId fetched).2.2 = true) ∧
    pollPrmoneyOnce 100 [⟨98, 0, 5⟩, ⟨101, 0, 6⟩, ⟨105, 0, 7⟩] =
      ([⟨101, 0, 6⟩, ⟨105, 0, 7⟩], 105, true) := by
  have key : ∀ (lastId : Nat) (fetched : List PrItem),
      (pollPrmoneyOnce lastId fetched =
        ([], lastId, false) ∧
        fetched.filter (fun it => decide (it.status = 0 ∧ lastId < it.id)) = []) ∨
      (pollPrmoneyOnce lastId fetched =
        (List.insertionSort prItemLe
           (fetched.filter (fun it => decide (it.status = 0 ∧ lastId < it.id))),
         maxIdFold lastId
           (List.insertionSort prItemLe
             (fetched.filter (fun it => decide (it.status = 0 ∧ lastId < it.id)))),
         true) ∧
        (pollPrmoneyOnce lastId fetched).1 ≠ []) := by
    intro lastId fetched
    rw [pollPrmoneyOnce_eq]
    by_cases he :
        (fetched.filter (fun it => decide (it.status = 0 ∧ lastId < it.id))).isEmpty = true
    · rw [if_pos he]
      exact Or.inl ⟨rfl, List.isEmpty_iff.mp he⟩
    · rw [if_neg he]
      have hne : fetched.filter (fun it => decide (it.status = 0 ∧ lastId < it.id)) ≠ [] := by
        intro hnil
        rw [hnil] at he
        exact he rfl
      have hsne : List.insertionSort prItemLe
          (fetched.filter (fun it => decide (it.status = 0 ∧ lastId < it.id))) ≠ [] := by
        intro hnil
        apply hne
        have hperm := List.perm_insertionSort prItemLe
          (fetched.filter (fun it => decide (it.status = 0 ∧ lastId < it.id)))
        rw [hnil] at hperm
        exact (List.Perm.nil_eq hperm).symm
      obtain ⟨r, rs, hcons⟩ := List.exists_cons_of_ne_nil hsne
      have hrmem : r ∈ List.insertionSort prItemLe
          (fetched.filter (fun it => decide (it.status = 0 ∧ lastId < it.id))) := by
        rw [hcons]
        exact List.mem_cons_self _ _
      have hrfil := (List.perm_insertionSort prItemLe _).mem_iff.mp hrmem
      have hrq := (List.mem_filter.mp hrfil).2
      have hrq2 : lastId < r.id := (of_decide_eq_true hrq).2
      have hmax : lastId < maxIdFold lastId
          (List.insertionSort prItemLe
            (fetched.filter (fun it => decide (it.status = 0 ∧ lastId < it.id)))) :=
        lt_of_lt_of_le hrq2 ((maxIdFold_le _ lastId).2 r hrmem)
      rw [if_pos hmax]
      exact Or.inr ⟨rfl, by rw [hcons]; exact List.cons_ne_nil r rs⟩
  refine ⟨?_, ?_, ?_, ?_, ?_, by decide⟩
  · intro lastId fetched
    rcases key lastId fetched with ⟨heq, hfil⟩ | ⟨heq, _⟩
    · rw [heq, hfil]
    · rw [heq]
      exact List.perm_insertionSort prItemLe _
  · intro lastId fetched
    rcases key lastId fetched with ⟨heq, _⟩ | ⟨heq, _⟩
    · rw [heq]
      exact List.sorted_nil
    · rw [heq]
      exact List.sorted_insertionSort prItemLe _
  · intro lastId fetched it hmem
    rcases key lastId fetched with ⟨heq, _⟩ | ⟨heq, _⟩
    · rw [heq] at hmem
      cases hmem
    · rw [heq] at hmem
      have hfil := (List.perm_insertionSort prItemLe _).mem_iff.mp hmem
      obtain ⟨hf, hq⟩ := List.mem_filter.mp hfil
      exact ⟨hf, of_decide_eq_true hq⟩
  · intro lastId fetched hnil
    rcases key lastId fetched with ⟨heq, _⟩ | ⟨heq, hne⟩
    · rw [heq]
      exact ⟨rfl, rfl⟩
    · exact absurd hnil hne
  · intro lastId fetched hne
    rcases key lastId fetched with ⟨heq, _⟩ | ⟨heq, _⟩
    · rw [heq] at hne
      exact absurd rfl hne
    · rw [heq] at hne ⊢
      have hsne : List.insertionSort prItemLe
          (fetched.filter (fun it => decide (it.status = 0 ∧ lastId < it.id))) ≠ [] := hne
      obtain ⟨r, rs, hcons⟩ := List.exists_cons_of_ne_nil hsne
      have hrmem : r ∈ List.insertionSort prItemLe
          (fetched.filter (fun it => decide (it.status = 0 ∧ lastId < it.id))) := by
        rw [hcons]
        exact List.mem_cons_self _ _
      have hrfil := (List.perm_insertionSort prItemLe _).mem_iff.mp hrmem
      have hrq2 : lastId < r.id :=
        (of_decide_eq_true (List.mem_filter.mp hrfil).2).2
      have hlt : lastId < maxIdFold lastId (List.insertionSort prItemLe
          (fetched.filter (fun it => decide (it.status = 0 ∧ lastId < it.id)))) :=
        lt_of_lt_of_le hrq2 ((maxIdFold_le _ lastId).2 r hrmem)
      refine ⟨?_, ?_, hlt, rfl⟩
      · rcases maxIdFold_mem (List.insertionSort prItemLe
            (fetched.filter (fun it => decide (it.status = 0 ∧ lastId < it.id)))) lastId with
          hm | ⟨it, hit, hid⟩
        · omega
        · exact ⟨it, hit, hid⟩
      · intro it hit
        exact (maxIdFold_le _ lastId).2 it hit

/-- C9 witness: the membership characterisation applied at the concrete
101-id item of the example fetch. -/
theorem prmoney_watermark_spec_witness :
    (⟨101, 0, 6⟩ : PrItem) ∈ ([⟨98, 0, 5⟩, ⟨101, 0, 6⟩, ⟨105, 0, 7⟩] : List PrItem) ∧
    (⟨101, 0, 6⟩ : PrItem).status = 0 ∧ 100 < (⟨101, 0, 6⟩ : PrItem).id :=
  prmoney_watermark_spec.2.2.1 100 [⟨98, 0, 5⟩, ⟨101, 0, 6⟩, ⟨105, 0, 7⟩]
    ⟨101, 0, 6⟩ (by decide)

/-- C8: the free-text deeplink extractor returns exactly
`"SBPQR://abc?x=1"` on the example noise string; it returns no result on
any text in which the URL regex finds no scheme-qualified candidate; and it
returns no result on any text whose candidates all lack the recognized
deeplink keywords (`qr.nspk.ru`, `SBPQR://`/`sbpqr://`, `mcash://`) after
edge trimming — in particular on `"https://example.com/foo"`. -/
theorem deeplink_extractor_spec :
    extractDeeplinkFromText "some noise SBPQR://abc?x=1 more noise" =
      some "SBPQR://abc?x=1" ∧
    (∀ text : String, findallDeeplinkCandidates text = [] →
      extractDeeplinkFromText text = none) ∧
    (∀ text : String,
      (∀ u ∈ findallDeeplinkCandidates text, hasDeeplinkKeyword (cleanUrl u) = false) →
      extractDeeplinkFromText text = none) ∧
    extractDeeplinkFromText "https://example.com/foo" = none := by
  refine ⟨by decide, ?_, ?_, by decide⟩
  · intro text h
    unfold extractDeeplinkFromText
    by_cases ht : text = ""
    · rw [if_pos ht]
    · rw [if_neg ht]
      simp only [h]
      rfl
  · intro text h
    unfold extractDeeplinkFromText
    by_cases ht : text = ""
    · rw [if_pos ht]
    · rw [if_neg ht]
      by_cases he : (findallDeeplinkCandidates text).isEmpty = true
      · simp only [he]
        rfl
      · simp only [he]
        simp only [Bool.false_eq_true, if_false]
        apply List.findSome?_eq_none_iff.mpr
        intro u hu
        rw [h u hu]
        rfl

/-- C8 witness: the no-keyword case applied at the concrete URL-bearing
text `"https://example.com/foo"`. -/
theorem deeplink_extractor_spec_witness :
    extractDeeplinkFromText "https://example.com/foo" = none :=
  deeplink_extractor_spec.2.2.1 "https://example.com/foo" (by decide)

/-! ### Lemmas about the date parser/formatter roundtrip -/

theorem digitChar_isDigit (k : Nat) (h : k < 10) : (Nat.digitChar k).isDigit = true := by
  interval_cases k <;> decide

theorem digitVal_digitChar (k : Nat) (h : k < 10) : digitVal (Nat.digitChar k) = k := by
  interval_cases k <;> decide

theorem pyWsChar_digitChar (k : Nat) (h : k < 10) : pyWsChar (Nat.digitChar k) = false := by
  interval_cases k <;> decide

theorem pad2_day_cands (d : Nat) (h1 : 1 ≤ d) (h2 : d ≤ 31) (rest : List Char) :
    ∃ junk, tokCandidates DTok.day (pad2 d ++ rest) = (d, rest) :: junk := by
  interval_cases d <;> exact ⟨_, rfl⟩

theorem pad2_month_cands (m : Nat) (h1 : 1 ≤ m) (h2 : m ≤ 12) (rest : List Char) :
    ∃ junk, tokCandidates DTok.month (pad2 m ++ rest) = (m, rest) :: junk := by
  interval_cases m <;> exact ⟨_, rfl⟩

theorem pad4_year_cands (y : Nat) (hy : y ≤ 9999) (rest : List Char) :
    tokCandidates DTok.year4 (pad4 y ++ rest) = [(y, rest)] := by
  have h1 : y / 1000 % 10 < 10 := Nat.mod_lt _ (by norm_num)
  have h2 : y / 100 % 10 < 10 := Nat.mod_lt _ (by norm_num)
  have h3 : y / 10 % 10 < 10 := Nat.mod_lt _ (by norm_num)
  have h4 : y % 10 < 10 := Nat.mod_lt _ (by norm_num)
  show tokCandidates DTok.year4
      (Nat.digitChar (y / 1000 % 10) :: Nat.digitChar (y / 100 % 10) ::
        Nat.digitChar (y / 10 % 10) :: Nat.digitChar (y % 10) :: rest) = [(y, rest)]
  simp only [tokCandidates, digitChar_isDigit _ h1, digitChar_isDigit _ h2,
    digitChar_isDigit _ h3, digitChar_isDigit _ h4, Bool.and_self, if_true,
    digitVal_digitChar _ h1, digitVal_digitChar _ h2, digitVal_digitChar _ h3,
    digitVal_digitChar _ h4]
  have hv : 1000 * (y / 1000 % 10) + 100 * (y / 100 % 10) + 10 * (y / 10 % 10) + y % 10
      = y := by omega
  rw [hv]

theorem pad4_year_cands_nil (y : Nat) (hy : y ≤ 9999) :
    tokCandidates DTok.year4 (pad4 y) = [(y, [])] := by
  have h := pad4_year_cands y hy []
  rwa [List.append_nil] at h

theorem lit_cands (c : Char) (rest : List Char) :
    tokCandidates (DTok.lit c) (c :: rest) = [(0, rest)] := by
  simp [tokCandidates]

theorem runToks_formatDMY (y m d : Nat) (hy2 : y ≤ 9999) (hm1 : 1 ≤ m)
    (hm2 : m ≤ 12) (hd1 : 1 ≤ d) (hd2 : d ≤ 31) :
    runToks fmtDMYdot (formatDMYChars ⟨y, m, d⟩) initParsed = some ⟨y, m, d⟩ := by
  obtain ⟨jd, hD⟩ := pad2_day_cands d hd1 hd2 ('.' :: (pad2 m ++ '.' :: pad4 y))
  obtain ⟨jm, hM⟩ := pad2_month_cands m hm1 hm2 ('.' :: pad4 y)
  have hY := pad4_year_cands_nil y hy2
  show runToks [DTok.day, DTok.lit '.', DTok.month, DTok.lit '.', DTok.year4]
      (pad2 d ++ '.' :: (pad2 m ++ '.' :: pad4 y)) initParsed = some ⟨y, m, d⟩
  simp only [runToks, hD, hM, hY, lit_cands, List.findSome?_cons, storeTok,
    List.isEmpty_nil, if_true]

theorem daysInMonth_le_31 (y m : Nat) : daysInMonth y m ≤ 31 := by
  unfold daysInMonth
  split_ifs <;> omega

theorem validDate_bounds (y m d : Nat) (h : validDate y m d = true) :
    1 ≤ y ∧ y ≤ 9999 ∧ 1 ≤ m ∧ m ≤ 12 ∧ 1 ≤ d ∧ d ≤ 31 := by
  unfold validDate at h
  simp only [Bool.and_eq_true, decide_eq_true_eq] at h
  obtain ⟨⟨⟨⟨⟨h1, h2⟩, h3⟩, h4⟩, h5⟩, h6⟩ := h
  exact ⟨h1, h2, h3, h4, h5, le_trans h6 (daysInMonth_le_31 y m)⟩

theorem tryFormat_valid (toks : List DTok) (cs : List Char) (p : DParsed)
    (h : tryFormat toks cs = some p) : validDate p.y p.m p.d = true := by
  unfold tryFormat at h
  split at h
  · split at h
    · cases Option.some.inj h
      assumption
    · cases h
  · cases h

theorem tryFormatsChain_valid (cs : List Char) (p : DParsed)
    (h : tryFormatsChain cs = some p) : validDate p.y p.m p.d = true := by
  unfold tryFormatsChain at h
  split at h
  · cases Option.some.inj h
    exact tryFormat_valid _ _ _ (by assumption)
  · split at h
    · cases Option.some.inj h
      exact tryFormat_valid _ _ _ (by assumption)
    · split at h
      · cases Option.some.inj h
        exact tryFormat_valid _ _ _ (by assumption)
      · split at h
        · cases Option.some.inj h
          exact tryFormat_valid _ _ _ (by assumption)
        · exact tryFormat_valid _ _ _ h

theorem tryFormat_formatDMY (p : DParsed) (h : validDate p.y p.m p.d = true) :
    tryFormat fmtDMYdot (formatDMYChars p) = some p := by
  obtain ⟨y, m, d⟩ := p
  obtain ⟨_, h2, h3, h4, h5, h6⟩ := validDate_bounds y m d h
  unfold tryFormat
  rw [runToks_formatDMY y m d h2 h3 h4 h5 h6]
  show (if validDate y m d = true then some (⟨y, m, d⟩ : DParsed) else none) =
    some (⟨y, m, d⟩ : DParsed)
  rw [if_pos h]

theorem tryFormatsChain_formatDMY (p : DParsed) (h : validDate p.y p.m p.d = true) :
    tryFormatsChain (formatDMYChars p) = some p := by
  unfold tryFormatsChain
  rw [tryFormat_formatDMY p h]

theorem tryFormatsChain_none_of_noMatch (cs : List Char)
    (h : noFormatMatches cs = true) : tryFormatsChain cs = none := by
  unfold noFormatMatches at h
  simp only [Bool.and_eq_true, Option.isNone_iff_eq_none] at h
  obtain ⟨⟨⟨⟨e1, e2⟩, e3⟩, e4⟩, e5⟩ := h
  unfold tryFormatsChain
  rw [e1, e2, e3, e4, e5]

/-! ### Strip-function lemmas -/

theorem dropWhile_head_not {p : Char → Bool} : ∀ (l : List Char) (a : Char) (t : List Char),
    l.dropWhile p = a :: t → p a = false := by
  intro l
  induction l with
  | nil =>
    intro a t h
    cases h
  | cons b bs ih =>
    intro a t h
    rw [List.dropWhile_cons] at h
    by_cases hb : p b = true
    · rw [if_pos hb] at h
      exact ih a t h
    · rw [if_neg hb] at h
      injection h with h1 _
      subst h1
      simpa using hb

theorem dropWhile_shape {p : Char → Bool} (l : List Char) :
    l.dropWhile p = [] ∨ ∃ a t, l.dropWhile p = a :: t ∧ p a = false := by
  rcases hd : l.dropWhile p with _ | ⟨a, t⟩
  · exact Or.inl rfl
  · exact Or.inr ⟨a, t, rfl, dropWhile_head_not l a t hd⟩

theorem dropWhile_nofix {p : Char → Bool} (l : List Char)
    (hl : l = [] ∨ ∃ a t, l = a :: t ∧ p a = false) : l.dropWhile p = l := by
  rcases hl with rfl | ⟨a, t, rfl, ha⟩
  · rfl
  · rw [List.dropWhile_cons, if_neg (by simp [ha])]

theorem dropWhile_idem {p : Char → Bool} (l : List Char) :
    (l.dropWhile p).dropWhile p = l.dropWhile p :=
  dropWhile_nofix _ (dropWhile_shape l)

theorem dropWhile_append_singleton {p : Char → Bool} (a : Char) (ha : p a = false) :
    ∀ l : List Char, ∃ t, (l ++ [a]).dropWhile p = t ++ [a] := by
  intro l
  induction l with
  | nil =>
    refine ⟨[], ?_⟩
    rw [List.nil_append, List.dropWhile_cons, if_neg (by simp [ha])]
  | cons b bs ih =>
    by_cases hb : p b = true
    · obtain ⟨t, ht⟩ := ih
      refine ⟨t, ?_⟩
      rw [List.cons_append, List.dropWhile_cons, if_pos hb]
      exact ht
    · refine ⟨b :: bs, ?_⟩
      rw [List.cons_append, List.dropWhile_cons, if_neg hb]

theorem revDrop_head_nofix {p : Char → Bool} (m : List Char)
    (hm : m = [] ∨ ∃ a t, m = a :: t ∧ p a = false) :
    ((m.reverse.dropWhile p).reverse).dropWhile p = (m.reverse.dropWhile p).reverse := by
  rcases hm with rfl | ⟨a, t, rfl, ha⟩
  · rfl
  · have hrev : (a :: t).reverse = t.reverse ++ [a] := by simp
    rw [hrev]
    obtain ⟨s, hs⟩ := dropWhile_append_singleton a ha t.reverse
    rw [hs]
    have hrev2 : (s ++ [a]).reverse = a :: s.reverse := by simp
    rw [hrev2, List.dropWhile_cons, if_neg (by simp [ha])]

theorem trimCharsBy_idem {p : Char → Bool} (l : List Char) :
    trimCharsBy p (trimCharsBy p l) = trimCharsBy p l := by
  unfold trimCharsBy
  rw [revDrop_head_nofix (l.dropWhile p) (dropWhile_shape l), List.reverse_reverse,
    dropWhile_idem]

theorem trimCharsBy_noop {p : Char → Bool} (l : List Char)
    (h : ∀ c ∈ l, p c = false) : trimCharsBy p l = l := by
  unfold trimCharsBy
  have h1 : l.dropWhile p = l := by
    apply dropWhile_nofix
    cases l with
    | nil => exact Or.inl rfl
    | cons a t => exact Or.inr ⟨a, t, rfl, h a (List.mem_cons_self _ _)⟩
  rw [h1]
  have h2 : l.reverse.dropWhile p = l.reverse := by
    apply dropWhile_nofix
    rcases hr : l.reverse with _ | ⟨a, t⟩
    · exact Or.inl rfl
    · refine Or.inr ⟨a, t, rfl, ?_⟩
      have ha : a ∈ l.reverse := by
        rw [hr]
        exact List.mem_cons_self _ _
      exact h a (List.mem_reverse.mp ha)
  rw [h2, List.reverse_reverse]

theorem pyStrip_idem (s : String) : pyStrip (pyStrip s) = pyStrip s := by
  show String.mk (trimCharsBy pyWsChar (trimCharsBy pyWsChar s.data)) =
    String.mk (trimCharsBy pyWsChar s.data)
  exact congrArg String.mk (trimCharsBy_idem s.data)

theorem pad2_no_ws (n : Nat) (hn : n < 100) : ∀ c ∈ pad2 n, pyWsChar c = false := by
  intro c hc
  unfold pad2 at hc
  by_cases h10 : n < 10
  · rw [if_pos h10] at hc
    simp only [List.mem_cons, List.not_mem_nil, or_false] at hc
    rcases hc with rfl | rfl
    · decide
    · exact pyWsChar_digitChar n h10
  · rw [if_neg h10] at hc
    simp only [List.mem_cons, List.not_mem_nil, or_false] at hc
    rcases hc with rfl | rfl
    · exact pyWsChar_digitChar _ (by omega)
    · exact pyWsChar_digitChar _ (Nat.mod_lt _ (by norm_num))

theorem pad4_no_ws (n : Nat) : ∀ c ∈ pad4 n, pyWsChar c = false := by
  intro c hc
  unfold pad4 at hc
  simp only [List.mem_cons, List.not_mem_nil, or_false] at hc
  rcases hc with rfl | rfl | rfl | rfl <;>
    exact pyWsChar_digitChar _ (Nat.mod_lt _ (by norm_num))

theorem formatDMYChars_no_ws (p : DParsed) (hd : p.d < 100) (hm : p.m < 100) :
    ∀ c ∈ formatDMYChars p, pyWsChar c = false := by
  intro c hc
  unfold formatDMYChars at hc
  rcases List.mem_append.mp hc with hc2 | hc2
  · exact pad2_no_ws p.d hd c hc2
  · rcases List.mem_cons.mp hc2 with rfl | hc3
    · decide
    · rcases List.mem_append.mp hc3 with hc4 | hc4
      · exact pad2_no_ws p.m hm c hc4
      · rcases List.mem_cons.mp hc4 with rfl | hc5
        · decide
        · exact pad4_no_ws p.y c hc5

theorem pyStrip_formatDMY (p : DParsed) (hd : p.d < 100) (hm : p.m < 100) :
    pyStrip (formatDMY p) = formatDMY p := by
  show String.mk (trimCharsBy pyWsChar (formatDMYChars p)) = formatDMY p
  rw [trimCharsBy_noop _ (formatDMYChars_no_ws p hd hm)]
  rfl

theorem formatDMY_ne_empty (p : DParsed) : ¬ formatDMY p = "" := by
  intro h
  have hd : formatDMYChars p = [] := congrArg String.data h
  have hcons : ∃ c cs, pad2 p.d = c :: cs := by
    unfold pad2
    by_cases h10 : p.d < 10
    · rw [if_pos h10]
      exact ⟨_, _, rfl⟩
    · rw [if_neg h10]
      exact ⟨_, _, rfl⟩
  obtain ⟨c, cs, hc⟩ := hcons
  unfold formatDMYChars at hd
  rw [hc] at hd
  exact absurd hd (by simp)

/-- C7, counterexample: on the unparseable input `" x"` the function
returns the *stripped* string `"x"`, not the input unchanged (Python strips
the raw value before trying any format and returns the stripped string on
fallthrough). -/
theorem c7_passthrough_counterexample :
    normalizeDateForMultitransfer (some " x") = some "x" ∧
    ¬ normalizeDateForMultitransfer (some " x") = some " x" := by decide

/-- C7 (amended): the five supported date shapes all normalize to
"26.08.2021"; the function is idempotent on every input; and an input
matching none of the supported shapes is returned stripped of surrounding
whitespace (absent when it is empty or whitespace-only) — it is returned
verbatim exactly when it carries no surrounding whitespace. -/
theorem date_normalization_spec :
    (normalizeDateForMultitransfer (some "2021-08-26") = some "26.08.2021" ∧
     normalizeDateForMultitransfer (some "2021-08-26 00:00:00") = some "26.08.2021" ∧
     normalizeDateForMultitransfer (some "26-08-2021") = some "26.08.2021" ∧
     normalizeDateForMultitransfer (some "2021.08.26") = some "26.08.2021" ∧
     normalizeDateForMultitransfer (some "26.08.2021") = some "26.08.2021") ∧
    (∀ v : Option String,
      normalizeDateForMultitransfer (normalizeDateForMultitransfer v) =
        normalizeDateForMultitransfer v) ∧
    (∀ s : String, noFormatMatches (pyStrip s).data = true →
      normalizeDateForMultitransfer (some s) =
        (if pyStrip s = "" then none else some (pyStrip s))) := by
  refine ⟨by decide, ?_, ?_⟩
  · intro v
    cases v with
    | none => rfl
    | some s =>
      by_cases hs : s = ""
      · subst hs
        have h0 : normalizeDateForMultitransfer (some "") = none := by
          simp [normalizeDateForMultitransfer]
        rw [h0]
        rfl
      · by_cases hr : pyStrip s = ""
        · have h0 : normalizeDateForMultitransfer (some s) = none := by
            simp only [normalizeDateForMultitransfer]
            rw [if_neg hs, if_pos hr]
          rw [h0]
          rfl
        · rcases hch : tryFormatsChain (pyStrip s).data with _ | p
          · have h0 : normalizeDateForMultitransfer (some s) = some (pyStrip s) := by
              simp only [normalizeDateForMultitransfer]
              rw [if_neg hs, if_neg hr, hch]
            rw [h0]
            simp only [normalizeDateForMultitransfer]
            rw [if_neg hr, pyStrip_idem s, if_neg hr, hch]
          · have hval := tryFormatsChain_valid _ _ hch
            obtain ⟨_, _, _, hm12, _, hd31⟩ := validDate_bounds _ _ _ hval
            have h0 : normalizeDateForMultitransfer (some s) = some (formatDMY p) := by
              simp only [normalizeDateForMultitransfer]
              rw [if_neg hs, if_neg hr, hch]
            rw [h0]
            simp only [normalizeDateForMultitransfer]
            rw [if_neg (formatDMY_ne_empty p),
              pyStrip_formatDMY p (by omega) (by omega),
              if_neg (formatDMY_ne_empty p)]
            have hchain2 : tryFormatsChain (formatDMY p).data = some p :=
              tryFormatsChain_formatDMY p hval
            rw [hchain2]
  · intro s h
    have hch : tryFormatsChain (pyStrip s).data = none :=
      tryFormatsChain_none_of_noMatch _ h
    by_cases hs : s = ""
    · subst hs
      have hps : pyStrip "" = "" := by decide
      rw [hps, if_pos rfl]
      simp [normalizeDateForMultitransfer]
    · by_cases hr : pyStrip s = ""
      · rw [if_pos hr]
        simp only [normalizeDateForMultitransfer]
        rw [if_neg hs, if_pos hr]
      · rw [if_neg hr]
        simp only [normalizeDateForMultitransfer]
        rw [if_neg hs, if_neg hr, hch]

/-- C7 witness: the amended pass-through clause applied at the concrete
unparseable (and already-stripped) input `"hello"`. -/
theorem date_normalization_spec_witness :
    normalizeDateForMultitransfer (some "hello") = some "hello" := by
  have h := date_normalization_spec.2.2 "hello" (by decide)
  rw [h]
  decide

end Aideon
